import Mathlib

/-!
# Shallow embedding of `src/app.js` (rgb color-chart page)

The script fetches a tab-separated `name<TAB>hexcode` table, parses it
(`parseColorData`), converts each color to HSV (`hexToRgb`, `rgbToHsv`),
buckets hues into a 360-element histogram (`renderHueBar`), and filters the
record set by a case-insensitive regular expression on each input event
(`setupFilterListener`).

Modelling decisions:
* JavaScript numbers are modelled exactly: a value is either `NaN` or a
  rational.  The arithmetic appearing in the script (`/ 255`, `max`, `min`,
  subtraction, division by a guarded non-zero denominator, `* 360`,
  `Math.round`) is exact on the rationals produced here, so the rational
  model tracks the float computation except for sub-ulp rounding noise,
  which none of the statements below depend on (no computed value sits at a
  rounding tie).
* `JNum` carries NaN explicitly; `undefined` (the unmatched-`switch` case
  in `rgbToHsv`) is an `Option JNum` that coerces to NaN when used in
  arithmetic, as in JavaScript.
* Strings are `List Char`; `split`, `trim`, `substr`, `startsWith`,
  `replace('#','')` (first occurrence only) and `parseInt(·, 16)` are
  modelled from their JavaScript semantics.
* The JS object `colors` is an association list with insert-or-overwrite
  semantics; `Object.keys` enumerates string keys in first-insertion order
  (the special placement of integer-like keys, and the inertness of the
  `__proto__` key, do not affect any property stated here).
* The external pieces (DOM, Plotly, the RegExp engine, the network) are
  abstracted: a fetch outcome is a value of `FetchResult`, regex
  compilation is an arbitrary partial function `compile`, and a compiled
  regex's case-insensitive `test` is an arbitrary boolean predicate.
-/

/-- A JavaScript number in the fragment used by `app.js`: `NaN` or an exact
rational. -/
inductive JNum where
  | nan : JNum
  | num : ℚ → JNum
deriving DecidableEq, Repr

namespace JNum

/-- JS subtraction: NaN-propagating. -/
def jsub : JNum → JNum → JNum
  | num a, num b => num (a - b)
  | _, _ => nan

/-- JS addition: NaN-propagating. -/
def jadd : JNum → JNum → JNum
  | num a, num b => num (a + b)
  | _, _ => nan

/-- JS multiplication: NaN-propagating. -/
def jmul : JNum → JNum → JNum
  | num a, num b => num (a * b)
  | _, _ => nan

/-- JS division as used in `app.js`.  Every division in the script has a
non-zero (and non-NaN ⇒ the guard applies) denominator on the paths where
it executes, so the `b = 0` case is unreachable there; we map it to `nan`. -/
def jdiv : JNum → JNum → JNum
  | num a, num b => if b = 0 then nan else num (a / b)
  | _, _ => nan

/-- JS strict equality `===` on numbers: `NaN === x` is false. -/
def jeq : JNum → JNum → Bool
  | num a, num b => a = b
  | _, _ => false

/-- JS `<` on numbers: any comparison with NaN is false. -/
def jlt : JNum → JNum → Bool
  | num a, num b => a < b
  | _, _ => false

/-- JS `Math.max` on two numbers: NaN if either argument is NaN. -/
def jmax : JNum → JNum → JNum
  | num a, num b => num (max a b)
  | _, _ => nan

/-- JS `Math.min` on two numbers: NaN if either argument is NaN. -/
def jmin : JNum → JNum → JNum
  | num a, num b => num (min a b)
  | _, _ => nan

/-- Coercion of a possibly-`undefined` JS number into arithmetic:
`undefined` becomes NaN. -/
def ofUndef : Option JNum → JNum
  | some x => x
  | none => nan

/-- JS `Math.round` (round half toward +∞), the bucket index in
`renderHueBar`; `Math.round(NaN)` is NaN, modelled as `none`. -/
def jround : JNum → Option ℤ
  | num a => some (round a)
  | nan => none

end JNum

open JNum

/-- `rgbToHsv` (src/app.js lines 80-100), faithful to JS number semantics
(NaN propagation, the `switch (max)` strict-equality dispatch, and `h`
remaining `undefined` when no case matches). -/
def rgbToHsv (r g b : JNum) : JNum × JNum × JNum :=
  let rNorm := jdiv r (num 255)
  let gNorm := jdiv g (num 255)
  let bNorm := jdiv b (num 255)
  let mx := jmax rNorm (jmax gNorm bNorm)
  let mn := jmin rNorm (jmin gNorm bNorm)
  let v := mx
  let d := jsub mx mn
  let s := if jeq mx (num 0) then num 0 else jdiv d mx
  let h :=
    if jeq mx mn then num 0
    else
      -- `switch (max)`: the first matching case runs; no match leaves
      -- `h` undefined, and `h /= 6` then yields NaN.
      let h0 : Option JNum :=
        if jeq mx rNorm then
          some (jadd (jdiv (jsub gNorm bNorm) d)
                     (if jlt gNorm bNorm then num 6 else num 0))
        else if jeq mx gNorm then
          some (jadd (jdiv (jsub bNorm rNorm) d) (num 2))
        else if jeq mx bNorm then
          some (jadd (jdiv (jsub rNorm gNorm) d) (num 4))
        else none
      jdiv (ofUndef h0) (num 6)
  (h, s, v)

/-- `rgbToHsv` restricted to genuine (non-NaN) numbers, over exact
rationals; `rgbToHsv_num` below proves it agrees with the `JNum` version. -/
def rgbToHsvQ (r g b : ℚ) : ℚ × ℚ × ℚ :=
  let rNorm := r / 255
  let gNorm := g / 255
  let bNorm := b / 255
  let mx := max rNorm (max gNorm bNorm)
  let mn := min rNorm (min gNorm bNorm)
  let v := mx
  let d := mx - mn
  let s := if mx = 0 then 0 else d / mx
  let h :=
    if mx = mn then 0
    else
      (if mx = rNorm then
        (gNorm - bNorm) / d + (if gNorm < bNorm then 6 else 0)
      else if mx = gNorm then (bNorm - rNorm) / d + 2
      else (rNorm - gNorm) / d + 4) / 6
  (h, s, v)

/-! ## Strings: JS `split`, `trim`, `substr`, `replace`, `parseInt(·,16)` -/

/-- JS `String.prototype.split(sep)` for a one-character separator: splits
at every occurrence, keeping empty pieces (so the result is never `[]`). -/
def jsSplit (sep : Char) : List Char → List (List Char)
  | [] => [[]]
  | c :: rest =>
    let r := jsSplit sep rest
    if c = sep then [] :: r
    else (c :: r.headD []) :: r.tail

/-- Whitespace as recognised by JS `trim` / `parseInt` (the ASCII portion;
the table data is ASCII). -/
def jsIsWhitespace (c : Char) : Bool :=
  c = ' ' ∨ c = '\t' ∨ c = '\n' ∨ c = '\r' ∨ c = '\x0b' ∨ c = '\x0c'

/-- JS `String.prototype.trim()`. -/
def jsTrim (s : List Char) : List Char :=
  ((s.dropWhile jsIsWhitespace).reverse.dropWhile jsIsWhitespace).reverse

/-- JS `String.prototype.substr(start, len)` for `start ≥ 0`. -/
def jsSubstr (s : List Char) (start len : ℕ) : List Char :=
  (s.drop start).take len

/-- JS `String.prototype.replace('#', '')`: removes only the first
occurrence of `'#'`. -/
def jsReplaceHash : List Char → List Char
  | [] => []
  | c :: rest => if c = '#' then rest else c :: jsReplaceHash rest

/-- Value of a hexadecimal digit character, if it is one. -/
def hexVal? (c : Char) : Option ℕ :=
  if '0' ≤ c ∧ c ≤ '9' then some (c.toNat - 48)
  else if 'a' ≤ c ∧ c ≤ 'f' then some (c.toNat - 87)
  else if 'A' ≤ c ∧ c ≤ 'F' then some (c.toNat - 55)
  else none

/-- Accumulate the maximal leading run of hex digits; `none` when the run
is empty (JS `parseInt` then returns NaN). -/
def hexDigitsAcc : List Char → Option ℕ → Option ℕ
  | [], acc => acc
  | c :: rest, acc =>
    match hexVal? c with
    | some d => hexDigitsAcc rest (some (acc.getD 0 * 16 + d))
    | none => acc

/-- JS `parseInt(s, 16)`, integer part: skip leading whitespace, take an
optional sign and an optional `0x`/`0X` prefix, then parse the maximal run
of hex digits; `none` when that run is empty. -/
def jsParseInt16Core (s : List Char) : Option ℤ :=
  let s1 := s.dropWhile jsIsWhitespace
  let sign : ℤ × List Char :=
    match s1 with
    | '-' :: r => (-1, r)
    | '+' :: r => (1, r)
    | _ => (1, s1)
  let s3 :=
    match sign.2 with
    | '0' :: 'x' :: r => r
    | '0' :: 'X' :: r => r
    | _ => sign.2
  match hexDigitsAcc s3 none with
  | none => none
  | some n => some (sign.1 * n)

/-- JS `parseInt(s, 16)` as a JS number: NaN when no hex digits are
found. -/
def jsParseInt16 (s : List Char) : JNum :=
  match jsParseInt16Core s with
  | none => JNum.nan
  | some n => JNum.num n

/-- `hexToRgb` (src/app.js lines 64-71): strip the first `'#'` and parse
the three two-character slices with `parseInt(·, 16)`. -/
def hexToRgb (hex : List Char) : JNum × JNum × JNum :=
  let hexCode := jsReplaceHash hex
  (jsParseInt16 (jsSubstr hexCode 0 2),
   jsParseInt16 (jsSubstr hexCode 2 2),
   jsParseInt16 (jsSubstr hexCode 4 2))

/-! ## `parseColorData` (src/app.js lines 31-57) -/

/-- Decidable equality for `Except`, used to evaluate the parser on
concrete inputs. -/
instance exceptDecEq {ε α : Type} [DecidableEq ε] [DecidableEq α] :
    DecidableEq (Except ε α) := fun a b =>
  match a, b with
  | .error x, .error y =>
    if h : x = y then isTrue (congrArg Except.error h)
    else isFalse (fun he => h (Except.error.inj he))
  | .error _, .ok _ => isFalse (fun he => Except.noConfusion he)
  | .ok _, .error _ => isFalse (fun he => Except.noConfusion he)
  | .ok x, .ok y =>
    if h : x = y then isTrue (congrArg Except.ok h)
    else isFalse (fun he => h (Except.ok.inj he))

/-- One color record as built in `parseColorData`; the `rgb` display
string is kept as the parsed component triple (its text formatting plays
no role in the program's logic). -/
structure ColorRecord where
  name : List Char
  hex : List Char
  hue : JNum
  saturation : JNum
  brightness : JNum
  rgb : JNum × JNum × JNum
deriving DecidableEq, Repr

/-- The body of the `Object.keys(colors).map(...)` callback: derive the
record for one `(name, hexCode)` entry. -/
def mkRecord (name hexCode : List Char) : ColorRecord :=
  let rgb := hexToRgb hexCode
  let hsv := rgbToHsv rgb.1 rgb.2.1 rgb.2.2
  { name := name
    hex := hexCode
    hue := jmul hsv.1 (num 360)
    saturation := hsv.2.1
    brightness := hsv.2.2
    rgb := rgb }

/-- Insert-or-overwrite on the `colors` object: an existing string key
keeps its position and gets the new value, a new key is appended.  This is
`colors[name] = hexCode` together with `Object.keys` insertion order. -/
def updateAssoc (m : List (List Char × List Char)) (k v : List Char) :
    List (List Char × List Char) :=
  match m with
  | [] => [(k, v)]
  | (k', v') :: rest =>
    if k' = k then (k', v) :: rest else (k', v') :: updateAssoc rest k v

/-- The `lines.forEach` loop of `parseColorData`: skip empty lines and
`#` comments; a kept line with no second tab-separated field leaves
`hexCode` undefined, and `hexCode.trim()` throws (`Except.error`). -/
def parseLines :
    List (List Char) → List (List Char × List Char) →
    Except Unit (List (List Char × List Char))
  | [], colors => .ok colors
  | line :: rest, colors =>
    if line ≠ [] ∧ ¬ (line.headD ' ' = '#') then
      let parts := (jsSplit '\t' line).take 2
      match parts.get? 1 with
      | none => .error ()   -- `undefined.trim()`: TypeError propagates
      | some hexCode => parseLines rest (updateAssoc colors (parts.headD []) (jsTrim hexCode))
    else parseLines rest colors

/-- `parseColorData`: split into lines, build the `colors` object, then
map each key to its derived record. -/
def parseColorData (data : List Char) : Except Unit (List ColorRecord) :=
  (parseLines (jsSplit '\n' data) []).map
    (fun colors => colors.map fun kv => mkRecord kv.1 kv.2)

/-! ## `renderHueBar` bucketing (src/app.js lines 115-122) -/

/-- One `hueCounts[Math.round(color.hue)]++` step on the 360-element
`hueCounts` array.  A JS increment at an index outside `0..359`
(including index 360, a negative index, or `NaN`) creates an extra
property on the array object and leaves all of the 360 per-bucket entries
unchanged. -/
def bucketStep (counts : List ℕ) (c : ColorRecord) : List ℕ :=
  match jround c.hue with
  | some i =>
    if 0 ≤ i ∧ i < 360 then counts.set i.toNat (counts.getD i.toNat 0 + 1)
    else counts
  | none => counts

/-- The bucketing pass of `renderHueBar`: fold the records over the
360-element zero-initialised `hueCounts` array. -/
def hueBucketCounts (colorData : List ColorRecord) : List ℕ :=
  colorData.foldl bucketStep (List.replicate 360 0)

/-! ## `fetchDataAndRender` (src/app.js lines 11-24) -/

/-- Outcome of the single `fetch(url)` (the network and `response.text()`
are external): the promise either rejects, or resolves with an `ok` flag,
a status code, and the body text. -/
inductive FetchResult where
  | reject : FetchResult
  | resolve : Bool → ℕ → List Char → FetchResult

/-- What happened during one `fetchDataAndRender()` call: how many times
`console.error` ran, and whether `renderGraphs` / `setupFilterListener`
were reached. -/
structure RenderLog where
  errorsLogged : ℕ
  chartsRendered : Bool
  listenerSetup : Bool
deriving DecidableEq, Repr

/-- The `try` body of `fetchDataAndRender`: rejection throws, `!response.ok`
throws, and `parseColorData` may throw. -/
def fetchBody (res : FetchResult) : Except Unit (List ColorRecord) :=
  match res with
  | .reject => .error ()
  | .resolve ok _status text =>
    if ok = false then .error ()
    else parseColorData text

/-- `fetchDataAndRender`: any exception from the body is caught once by the
single `catch`, which logs it; rendering and listener setup happen only on
the success path.  There is no retry: one call, one log. -/
def fetchDataAndRender (res : FetchResult) : RenderLog :=
  match fetchBody res with
  | .error _ => { errorsLogged := 1, chartsRendered := false, listenerSetup := false }
  | .ok _ => { errorsLogged := 0, chartsRendered := true, listenerSetup := true }

/-! ## `setupFilterListener` (src/app.js lines 183-194)

The RegExp engine is external: `compile` stands for
`new RegExp(filterTerm, 'i')` (returning `none` when the constructor
throws a `SyntaxError`), and `test re s` for the case-insensitive
`re.test(s)`. -/

/-- The body of the `'input'` event handler, for one keystroke with the
field holding `value`.  `.ok data` means `renderGraphs data` ran; `.error`
means the uncaught `RegExp` exception escaped the handler (it contains no
`try`/`catch`) and no rendering happened. -/
def inputHandler {R : Type} (compile : List Char → Option R)
    (test : R → List Char → Bool) (colorData : List ColorRecord)
    (value : List Char) : Except Unit (List ColorRecord) :=
  let filterTerm := jsTrim value
  if filterTerm = [] then .ok colorData
  else
    match compile filterTerm with
    | none => .error ()
    | some re => .ok (colorData.filter fun c => test re c.name)

/-! ## Concrete inputs and auxiliary definitions used by the theorems -/

/-- A one-line color table whose single color rounds to hue bucket 360. -/
def almostredTable : List Char := "almostred\tFF0001".toList

/-- The record `parseColorData` derives from `almostredTable`
(hue `6116/17 = 359.7647…`). -/
def almostredRecord : ColorRecord :=
  { name := "almostred".toList
    hex := "FF0001".toList
    hue := num (6116 / 17)
    saturation := num 1
    brightness := num 1
    rgb := (num 255, num 0, num 1) }

/-- The `(name, trimmed hexCode)` contribution of one line of the table;
`none` for skipped (empty or comment) lines or for a kept line with no
second tab-separated field (which makes `parseColorData` throw instead). -/
def entryOfLine (line : List Char) : Option (List Char × List Char) :=
  if line ≠ [] ∧ ¬ (line.headD ' ' = '#') then
    match ((jsSplit '\t' line).take 2).get? 1 with
    | none => none
    | some hexCode => some (((jsSplit '\t' line).take 2).headD [], jsTrim hexCode)
  else none

/-- First-match lookup in the `colors` association list. -/
def lookupA (k : List Char) : List (List Char × List Char) → Option (List Char)
  | [] => none
  | (n, v) :: rest => if n = k then some v else lookupA k rest

/-- The value attached to the LAST entry for key `k`, if any. -/
def lastVal (k : List Char) : List (List Char × List Char) → Option (List Char)
  | [] => none
  | (n, v) :: rest =>
    match lastVal k rest with
    | some w => some w
    | none => if n = k then some v else none

/-- A table with the name `red` on two data lines. -/
def doubleRedTable : List Char := "red\tFF0000\nred\t00FF00".toList

/-- The single record `parseColorData` derives from `doubleRedTable`: it
carries `00FF00`, the hex code of the LAST `red` line. -/
def lastRedRecord : ColorRecord :=
  { name := "red".toList
    hex := "00FF00".toList
    hue := num 120
    saturation := num 1
    brightness := num 1
    rgb := (num 0, num 255, num 0) }

/-! ## Basic facts about the models -/

/-- On genuine numbers the `JNum` implementation of `rgbToHsv` computes
exactly the rational-valued `rgbToHsvQ`: no NaN ever arises (in
particular some `switch` case always fires, and every executed division
has a non-zero denominator). -/
theorem rgbToHsv_num (a b c : ℚ) :
    rgbToHsv (num a) (num b) (num c) =
      (num (rgbToHsvQ a b c).1, num (rgbToHsvQ a b c).2.1,
       num (rgbToHsvQ a b c).2.2) := by
  have h255 : ¬ (255 : ℚ) = 0 := by norm_num
  have h6 : ¬ (6 : ℚ) = 0 := by norm_num
  have hmax : max (a/255) (max (b/255) (c/255)) = a/255 ∨
      max (a/255) (max (b/255) (c/255)) = b/255 ∨
      max (a/255) (max (b/255) (c/255)) = c/255 := by
    rcases max_choice (a/255) (max (b/255) (c/255)) with h | h
    · exact Or.inl h
    · rcases max_choice (b/255) (c/255) with h' | h'
      · exact Or.inr (Or.inl (h.trans h'))
      · exact Or.inr (Or.inr (h.trans h'))
  unfold rgbToHsv rgbToHsvQ
  simp only [jdiv, jmax, jmin, jsub, jadd, jeq, jlt, ofUndef, if_neg h255,
    if_neg h6, decide_eq_true_eq, Prod.mk.injEq]
  refine ⟨?_, ?_, ?_⟩
  · by_cases hmm : max (a/255) (max (b/255) (c/255)) =
        min (a/255) (min (b/255) (c/255))
    · simp [hmm]
    · have hd : ¬ max (a/255) (max (b/255) (c/255)) -
          min (a/255) (min (b/255) (c/255)) = 0 :=
        sub_ne_zero_of_ne hmm
      simp only [if_neg hmm, if_neg hd]
      split_ifs <;> simp_all [jadd, jdiv, if_neg hd, if_neg h6]
  · split_ifs with h1 <;> simp_all
  · trivial

/-- The hue fraction `h` computed by `rgbToHsvQ` always lies in `[0, 1]`
(each `switch` branch lands in its sector of `[0, 6]` before `h /= 6`). -/
theorem rgbToHsvQ_h_bounds (a b c : ℚ) :
    0 ≤ (rgbToHsvQ a b c).1 ∧ (rgbToHsvQ a b c).1 ≤ 1 := by
  simp only [rgbToHsvQ]
  set a' := a / 255 with ha'
  set b' := b / 255 with hb'
  set c' := c / 255 with hc'
  set mx := max a' (max b' c') with hmx
  set mn := min a' (min b' c') with hmn
  have hamx : a' ≤ mx := le_max_left _ _
  have hbmx : b' ≤ mx := le_trans (le_max_left _ _) (le_max_right _ _)
  have hcmx : c' ≤ mx := le_trans (le_max_right _ _) (le_max_right _ _)
  have hamn : mn ≤ a' := min_le_left _ _
  have hbmn : mn ≤ b' := le_trans (min_le_right _ _) (min_le_left _ _)
  have hcmn : mn ≤ c' := le_trans (min_le_right _ _) (min_le_right _ _)
  by_cases hmm : mx = mn
  · rw [if_pos hmm]
    norm_num
  · rw [if_neg hmm]
    have hd : 0 < mx - mn :=
      sub_pos.mpr (lt_of_le_of_ne (hamn.trans hamx) (Ne.symm hmm))
    have h6 : (0:ℚ) < 6 := by norm_num
    split_ifs with h1 h2 h3
    · have hql : -1 ≤ (b' - c') / (mx - mn) := by rw [le_div_iff₀ hd]; linarith
      have hq0 : (b' - c') / (mx - mn) ≤ 0 := by rw [div_le_iff₀ hd]; linarith
      constructor
      · apply div_nonneg _ (le_of_lt h6); linarith
      · rw [div_le_one h6]; linarith
    · have hq0 : 0 ≤ (b' - c') / (mx - mn) := by rw [le_div_iff₀ hd]; linarith
      have hqu : (b' - c') / (mx - mn) ≤ 1 := by rw [div_le_iff₀ hd]; linarith
      constructor
      · apply div_nonneg _ (le_of_lt h6); linarith
      · rw [div_le_one h6]; linarith
    · have hql : -1 ≤ (c' - a') / (mx - mn) := by rw [le_div_iff₀ hd]; linarith
      have hqu : (c' - a') / (mx - mn) ≤ 1 := by rw [div_le_iff₀ hd]; linarith
      constructor
      · apply div_nonneg _ (le_of_lt h6); linarith
      · rw [div_le_one h6]; linarith
    · have hql : -1 ≤ (a' - b') / (mx - mn) := by rw [le_div_iff₀ hd]; linarith
      have hqu : (a' - b') / (mx - mn) ≤ 1 := by rw [div_le_iff₀ hd]; linarith
      constructor
      · apply div_nonneg _ (le_of_lt h6); linarith
      · rw [div_le_one h6]; linarith

/-- For non-negative channels the saturation `s = d / max` lies in `[0, 1]`. -/
theorem rgbToHsvQ_s_bounds (a b c : ℚ) (han : 0 ≤ a) (hbn : 0 ≤ b)
    (hcn : 0 ≤ c) :
    0 ≤ (rgbToHsvQ a b c).2.1 ∧ (rgbToHsvQ a b c).2.1 ≤ 1 := by
  simp only [rgbToHsvQ]
  set a' := a / 255 with ha'
  set b' := b / 255 with hb'
  set c' := c / 255 with hc'
  set mx := max a' (max b' c') with hmx
  set mn := min a' (min b' c') with hmn
  have ha0 : 0 ≤ a' := by positivity
  have hb0 : 0 ≤ b' := by positivity
  have hc0 : 0 ≤ c' := by positivity
  have hmn0 : 0 ≤ mn := le_min ha0 (le_min hb0 hc0)
  have hmnmx : mn ≤ mx := le_trans (min_le_left _ _) (le_max_left _ _)
  by_cases h0 : mx = 0
  · rw [if_pos h0]; norm_num
  · rw [if_neg h0]
    have hmxpos : 0 < mx := lt_of_le_of_ne (le_trans hmn0 hmnmx) (Ne.symm h0)
    constructor
    · apply div_nonneg _ (le_of_lt hmxpos); linarith
    · rw [div_le_one hmxpos]; linarith

/-- For channels in `[0, 255]` the value `v = max` lies in `[0, 1]`. -/
theorem rgbToHsvQ_v_bounds (a b c : ℚ) (han : 0 ≤ a) (ha : a ≤ 255)
    (_hbn : 0 ≤ b) (hb : b ≤ 255) (_hcn : 0 ≤ c) (hc : c ≤ 255) :
    0 ≤ (rgbToHsvQ a b c).2.2 ∧ (rgbToHsvQ a b c).2.2 ≤ 1 := by
  simp only [rgbToHsvQ]
  constructor
  · exact le_trans (by positivity) (le_max_left _ _)
  · apply max_le (by linarith) (max_le (by linarith) (by linarith))

theorem hexToRgb_FF0001 : hexToRgb "FF0001".toList = (num 255, num 0, num 1) := by
  simp only [hexToRgb,
    show jsParseInt16Core (jsSubstr (jsReplaceHash "FF0001".toList) 0 2) =
      some 255 from by decide,
    show jsParseInt16Core (jsSubstr (jsReplaceHash "FF0001".toList) 2 2) =
      some 0 from by decide,
    show jsParseInt16Core (jsSubstr (jsReplaceHash "FF0001".toList) 4 2) =
      some 1 from by decide,
    jsParseInt16]
  norm_num

theorem rgbToHsv_FF0001 :
    rgbToHsv (num 255) (num 0) (num 1) = (num (1529 / 1530), num 1, num 1) := by
  norm_num [rgbToHsv, jdiv, jmax, jmin, jsub, jadd, jeq, jlt, ofUndef]

theorem round_FF0001_hue : round ((1529 : ℚ) / 1530 * 360) = 360 := by
  rw [show ((1529 : ℚ) / 1530 * 360) = 6116 / 17 by norm_num, round_eq,
    show ((6116 : ℚ) / 17 + 1 / 2) = 12249 / 34 by norm_num, Int.floor_eq_iff]
  norm_num

theorem parse_almostred : parseColorData almostredTable = .ok [almostredRecord] := by
  have hp : parseLines (jsSplit '\n' almostredTable) [] =
      .ok [("almostred".toList, "FF0001".toList)] := by decide
  simp only [parseColorData, hp, Except.map, List.map, mkRecord,
    hexToRgb_FF0001, rgbToHsv_FF0001, almostredRecord]
  norm_num [jmul]

/-! ## The claims -/

/-- C1: the claim says the 360 per-bucket hue counts of `renderHueBar`
always sum to the number of records.  The code violates it: the valid
six-hex-digit code `FF0001` yields hue `6116/17 ≈ 359.76`, which
`Math.round` sends to bucket index 360 — one past the end of the
360-element `hueCounts` array — so the in-range buckets stay all zero and
sum to `0`, not `1`. -/
theorem c1_bucket_sum_failing_input :
    parseColorData almostredTable = .ok [almostredRecord] ∧
    jround almostredRecord.hue = some 360 ∧
    hueBucketCounts [almostredRecord] = List.replicate 360 0 ∧
    (hueBucketCounts [almostredRecord]).sum = 0 ∧
    [almostredRecord].length = 1 := by
  have hr : jround almostredRecord.hue = some 360 := by
    simp only [almostredRecord, jround]
    rw [show ((6116 : ℚ) / 17) = 1529 / 1530 * 360 by norm_num, round_FF0001_hue]
  have hc : hueBucketCounts [almostredRecord] = List.replicate 360 0 := by
    simp only [hueBucketCounts, List.foldl, bucketStep, hr]
    norm_num
  refine ⟨parse_almostred, hr, hc, ?_, rfl⟩
  rw [hc, List.sum_replicate, smul_zero]

/-- C2, counterexample: for `r,g,b = 255,0,1` the hue `6116/17` lies in
`[0, 360)`, yet the bucket index `Math.round(hue)` is `360`, which is not
in `0..359`. -/
theorem c2_bucket_index_not_in_range :
    jmul (rgbToHsv (num 255) (num 0) (num 1)).1 (num 360) = num (6116 / 17) ∧
    0 ≤ (6116 : ℚ) / 17 ∧ (6116 : ℚ) / 17 < 360 ∧
    jround (jmul (rgbToHsv (num 255) (num 0) (num 1)).1 (num 360)) =
      some 360 ∧
    ¬ ((360 : ℤ) ≤ 359) := by
  have h1 : jmul (rgbToHsv (num 255) (num 0) (num 1)).1 (num 360) =
      num (6116 / 17) := by
    rw [rgbToHsv_FF0001]; norm_num [jmul]
  refine ⟨h1, by norm_num, by norm_num, ?_, by norm_num⟩
  rw [h1]
  simp only [jround, Option.some.injEq]
  rw [show ((6116 : ℚ) / 17) = 1529 / 1530 * 360 by norm_num, round_FF0001_hue]

/-- C2, amended: for every input the hue produced by `rgbToHsv` is a
genuine number and the bucket index `Math.round(hue)` lies in `0..360`;
the value 360 is reachable (as at hue `6116/17` for `r,g,b = 255,0,1`)
and is one past the end of the 360-element count array, so not every
increment stays in bounds. -/
theorem c2_bucket_index_amended (a b c : ℚ) :
    ∃ h s v : ℚ, rgbToHsv (num a) (num b) (num c) = (num h, num s, num v) ∧
      jround (jmul (num h) (num 360)) = some (round (h * 360)) ∧
      0 ≤ round (h * 360) ∧ round (h * 360) ≤ 360 := by
  obtain ⟨h0, h1⟩ := rgbToHsvQ_h_bounds a b c
  refine ⟨_, _, _, rgbToHsv_num a b c, rfl, ?_, ?_⟩
  · rw [round_eq]
    exact Int.floor_nonneg.mpr (by nlinarith)
  · rw [round_eq]
    have hle : ⌊(rgbToHsvQ a b c).1 * 360 + 1 / 2⌋ ≤ ⌊(721 : ℚ) / 2⌋ :=
      Int.floor_le_floor (by nlinarith)
    have h721 : ⌊(721 : ℚ) / 2⌋ = 360 := by
      rw [Int.floor_eq_iff]
      norm_num
    omega

/-- C4: the known fixtures hold — pure red has `h = 0`, pure green has
`h * 360 = 120`, and white has saturation `s = 0`. -/
theorem c4_rgbToHsv_fixtures :
    (rgbToHsv (num 255) (num 0) (num 0)).1 = num 0 ∧
    jmul (rgbToHsv (num 0) (num 255) (num 0)).1 (num 360) = num 120 ∧
    (rgbToHsv (num 255) (num 255) (num 255)).2.1 = num 0 := by
  refine ⟨?_, ?_, ?_⟩
  all_goals norm_num [rgbToHsv, jdiv, jmax, jmin, jsub, jadd, jeq, jlt, jmul, ofUndef]

/-- C5: for every `r, g, b` in `0..255` the derived record fields satisfy
`0 ≤ hue = h*360 ≤ 360`, `0 ≤ s ≤ 1` and `0 ≤ v ≤ 1` (and no NaN
arises). -/
theorem c5_record_field_ranges (r g b : ℕ) (hr : r ≤ 255) (hg : g ≤ 255)
    (hb : b ≤ 255) :
    ∃ h s v : ℚ,
      rgbToHsv (num r) (num g) (num b) = (num h, num s, num v) ∧
      0 ≤ h * 360 ∧ h * 360 ≤ 360 ∧ 0 ≤ s ∧ s ≤ 1 ∧ 0 ≤ v ∧ v ≤ 1 := by
  obtain ⟨hh0, hh1⟩ := rgbToHsvQ_h_bounds r g b
  obtain ⟨hs0, hs1⟩ := rgbToHsvQ_s_bounds r g b (Nat.cast_nonneg r)
    (Nat.cast_nonneg g) (Nat.cast_nonneg b)
  obtain ⟨hv0, hv1⟩ := rgbToHsvQ_v_bounds r g b (Nat.cast_nonneg r)
    (by exact_mod_cast hr) (Nat.cast_nonneg g) (by exact_mod_cast hg)
    (Nat.cast_nonneg b) (by exact_mod_cast hb)
  exact ⟨_, _, _, rgbToHsv_num r g b, by linarith, by linarith,
    hs0, hs1, hv0, hv1⟩

/-- Witness for C5 at the concrete input `r,g,b = 255,0,1`. -/
theorem c5_record_field_ranges_witness :
    ∃ h s v : ℚ,
      rgbToHsv (num ((255 : ℕ) : ℚ)) (num ((0 : ℕ) : ℚ)) (num ((1 : ℕ) : ℚ)) =
        (num h, num s, num v) ∧
      0 ≤ h * 360 ∧ h * 360 ≤ 360 ∧ 0 ≤ s ∧ s ≤ 1 ∧ 0 ≤ v ∧ v ≤ 1 :=
  c5_record_field_ranges 255 0 1 (by norm_num) (by norm_num) (by norm_num)

/-- C6: whenever the maximum normalized channel equals the minimum the
returned hue is 0, and whenever the maximum is 0 the returned saturation
is 0. -/
theorem c6_achromatic_edge_cases (a b c : ℚ) :
    (max (a / 255) (max (b / 255) (c / 255)) =
        min (a / 255) (min (b / 255) (c / 255)) →
      (rgbToHsv (num a) (num b) (num c)).1 = num 0) ∧
    (max (a / 255) (max (b / 255) (c / 255)) = 0 →
      (rgbToHsv (num a) (num b) (num c)).2.1 = num 0) := by
  rw [rgbToHsv_num]
  constructor
  · intro hmm
    simp only [rgbToHsvQ]
    rw [if_pos hmm]
  · intro h0
    simp only [rgbToHsvQ]
    rw [if_pos h0]

/-- Witness for C6 at `r,g,b = 0,0,0` (both edge conditions hold). -/
theorem c6_achromatic_edge_cases_witness :
    (rgbToHsv (num 0) (num 0) (num 0)).1 = num 0 ∧
    (rgbToHsv (num 0) (num 0) (num 0)).2.1 = num 0 :=
  ⟨(c6_achromatic_edge_cases 0 0 0).1 (by norm_num),
   (c6_achromatic_edge_cases 0 0 0).2 (by norm_num)⟩

/-- C3: for every filter term, when the trimmed term is empty the full
`colorData` set is rendered; when it is non-empty and compiles to a regex,
the handler renders a filtered set that is a subset of `colorData` in
which every record's name passes the (case-insensitive) regex test. -/
theorem c3_filter_subset_and_match {R : Type} (compile : List Char → Option R)
    (test : R → List Char → Bool) (colorData : List ColorRecord)
    (value : List Char) :
    (jsTrim value = [] →
      inputHandler compile test colorData value = .ok colorData) ∧
    (jsTrim value ≠ [] → ∀ re, compile (jsTrim value) = some re →
      ∃ filtered,
        inputHandler compile test colorData value = .ok filtered ∧
        (∀ rec, rec ∈ filtered → rec ∈ colorData) ∧
        (∀ rec, rec ∈ filtered → test re rec.name = true)) := by
  constructor
  · intro he
    simp [inputHandler, he]
  · intro hne re hre
    refine ⟨colorData.filter (fun c => test re c.name), ?_, ?_, ?_⟩
    · simp [inputHandler, hne, hre]
    · intro rec hrec
      exact (List.mem_filter.mp hrec).1
    · intro rec hrec
      exact (List.mem_filter.mp hrec).2

/-- Witness for C3 at a concrete term, record set, and regex engine. -/
theorem c3_filter_subset_and_match_witness :
    ∃ filtered,
      inputHandler (fun _ : List Char => some ()) (fun _ _ => true)
        ([] : List ColorRecord) "a".toList = .ok filtered ∧
      (∀ rec, rec ∈ filtered → rec ∈ ([] : List ColorRecord)) ∧
      (∀ rec, rec ∈ filtered →
        (fun (_ : Unit) (_ : List Char) => true) () rec.name = true) :=
  (c3_filter_subset_and_match _ _ _ _).2 (by decide) () rfl

/-- C7: whenever the fetch rejects, the response is not ok, or parsing the
text throws (a non-empty non-comment line with no tab-separated second
field), the exception is caught exactly once — `console.error` runs once —
and neither chart rendering nor filter-listener setup occurs; there is no
retry (one call produces exactly this one log). -/
theorem c7_fetch_failure_logged_once (res : FetchResult)
    (hfail : res = .reject ∨ (∃ st text, res = .resolve false st text) ∨
      (∃ ok st text, res = .resolve ok st text ∧ parseColorData text = .error ())) :
    fetchDataAndRender res =
      { errorsLogged := 1, chartsRendered := false, listenerSetup := false } := by
  rcases hfail with h | ⟨st, text, h⟩ | ⟨ok, st, text, h, hp⟩
  · rw [h]; rfl
  · rw [h]; rfl
  · rw [h]
    cases ok
    · rfl
    · simp [fetchDataAndRender, fetchBody, hp]

/-- Witness for C7: a rejected fetch, and an ok response whose body `abc`
(a data line with no tab) makes `hexCode.trim()` throw. -/
theorem c7_fetch_failure_logged_once_witness :
    fetchDataAndRender .reject =
      { errorsLogged := 1, chartsRendered := false, listenerSetup := false } ∧
    fetchDataAndRender (.resolve true 200 "abc".toList) =
      { errorsLogged := 1, chartsRendered := false, listenerSetup := false } :=
  ⟨c7_fetch_failure_logged_once .reject (Or.inl rfl),
   c7_fetch_failure_logged_once _
     (Or.inr (Or.inr ⟨true, 200, "abc".toList, rfl, by decide⟩))⟩

/-- C9: a non-empty filter term whose `RegExp` construction throws makes
the input handler propagate the exception (the handler body contains no
`try`/`catch`; `fetchDataAndRender`'s `try` block has already returned
before any input event fires, so its `catch` cannot apply), and the charts
are not re-rendered for that keystroke. -/
theorem c9_invalid_regex_uncaught {R : Type} (compile : List Char → Option R)
    (test : R → List Char → Bool) (colorData : List ColorRecord)
    (value : List Char) (hne : jsTrim value ≠ [])
    (hc : compile (jsTrim value) = none) :
    inputHandler compile test colorData value = .error () ∧
    ∀ rendered, inputHandler compile test colorData value ≠ .ok rendered := by
  have h : inputHandler compile test colorData value = .error () := by
    simp [inputHandler, hne, hc]
  exact ⟨h, fun rendered hok => by rw [h] at hok; exact Except.noConfusion hok⟩

/-- Witness for C9 at the concrete invalid pattern `"("`. -/
theorem c9_invalid_regex_uncaught_witness :
    inputHandler (fun _ : List Char => (none : Option Unit)) (fun _ _ => true)
      ([] : List ColorRecord) "(".toList = .error () ∧
    ∀ rendered, inputHandler (fun _ : List Char => (none : Option Unit))
      (fun _ _ => true) ([] : List ColorRecord) "(".toList ≠ .ok rendered :=
  c9_invalid_regex_uncaught _ _ _ _ (by decide) rfl

/-! ## C8: distinct names, last line wins -/

theorem lookupA_updateAssoc (m : List (List Char × List Char))
    (k n v : List Char) :
    lookupA k (updateAssoc m n v) = if n = k then some v else lookupA k m := by
  induction m with
  | nil => simp [updateAssoc, lookupA]
  | cons hd tl ih =>
    obtain ⟨n', v'⟩ := hd
    simp only [updateAssoc]
    by_cases h : n' = n
    · rw [if_pos h]
      subst h
      simp only [lookupA]
      by_cases hk : n' = k <;> simp [hk]
    · rw [if_neg h]
      simp only [lookupA]
      by_cases hk : n' = k
      · have hnk : ¬ n = k := fun he => h (hk.trans he.symm)
        simp [hk, hnk]
      · simp [hk, ih]

theorem mem_keys_updateAssoc (m : List (List Char × List Char))
    (n v k : List Char) :
    k ∈ (updateAssoc m n v).map Prod.fst → k ∈ m.map Prod.fst ∨ k = n := by
  induction m with
  | nil =>
    intro h
    simp [updateAssoc] at h
    exact Or.inr h
  | cons hd tl ih =>
    obtain ⟨n', v'⟩ := hd
    intro h
    simp only [updateAssoc] at h
    by_cases he : n' = n
    · rw [if_pos he] at h
      simp only [List.map_cons, List.mem_cons] at h
      rcases h with h | h
      · exact Or.inl (by simp [h])
      · exact Or.inl (by simp [h])
    · rw [if_neg he] at h
      simp only [List.map_cons, List.mem_cons] at h
      rcases h with h | h
      · exact Or.inl (by simp [h])
      · rcases ih h with h' | h'
        · exact Or.inl (by simp [h'])
        · exact Or.inr h'

/-- `colors[name] = hexCode` keeps the object's string keys distinct. -/
theorem keys_updateAssoc_nodup (m : List (List Char × List Char))
    (n v : List Char) (h : (m.map Prod.fst).Nodup) :
    ((updateAssoc m n v).map Prod.fst).Nodup := by
  induction m with
  | nil => simp [updateAssoc]
  | cons hd tl ih =>
    obtain ⟨n', v'⟩ := hd
    simp only [List.map_cons, List.nodup_cons] at h
    by_cases he : n' = n
    · simp only [updateAssoc, if_pos he, List.map_cons, List.nodup_cons]
      exact h
    · simp only [updateAssoc, if_neg he, List.map_cons, List.nodup_cons]
      refine ⟨fun hmem => ?_, ih h.2⟩
      rcases mem_keys_updateAssoc tl n v n' hmem with h' | h'
      · exact h.1 h'
      · exact he h'

theorem lookupA_eq_some_of_mem (m : List (List Char × List Char))
    (k v : List Char) (hnd : (m.map Prod.fst).Nodup) (hm : (k, v) ∈ m) :
    lookupA k m = some v := by
  induction m with
  | nil => cases hm
  | cons hd tl ih =>
    obtain ⟨n', v'⟩ := hd
    simp only [List.map_cons, List.nodup_cons] at hnd
    rcases List.mem_cons.mp hm with h | h
    · injection h with h1 h2
      subst h1
      subst h2
      simp [lookupA]
    · have hk : ¬ n' = k := by
        intro he
        subst he
        exact hnd.1 (by exact List.mem_map.mpr ⟨(n', v), h, rfl⟩)
      simp only [lookupA, if_neg hk]
      exact ih hnd.2 h

/-- The `lines.forEach` loop keeps the keys of `colors` distinct, and a
successful pass leaves each key bound to the value of its LAST
contributing line (later assignments overwrite earlier ones). -/
theorem parseLines_ok_spec (lines : List (List Char)) :
    ∀ colors final, parseLines lines colors = .ok final →
      (((colors.map Prod.fst).Nodup → (final.map Prod.fst).Nodup) ∧
       ∀ k, lookupA k final =
         match lastVal k (lines.filterMap entryOfLine) with
         | some v => some v
         | none => lookupA k colors) := by
  induction lines with
  | nil =>
    intro colors final h
    simp only [parseLines] at h
    injection h with h
    subst h
    simp [lastVal]
  | cons line rest ih =>
    intro colors final h
    by_cases hkeep : line ≠ [] ∧ ¬ (line.headD ' ' = '#')
    · rw [parseLines, if_pos hkeep] at h
      cases hget : ((jsSplit '\t' line).take 2).get? 1 with
      | none =>
        simp only [hget] at h
        exact Except.noConfusion h
      | some hexCode =>
        simp only [hget] at h
        obtain ⟨hnodup, hlook⟩ := ih _ _ h
        have hentry : entryOfLine line =
            some (((jsSplit '\t' line).take 2).headD [], jsTrim hexCode) := by
          rw [entryOfLine, if_pos hkeep, hget]
        constructor
        · intro hc
          exact hnodup (keys_updateAssoc_nodup _ _ _ hc)
        · intro k
          rw [List.filterMap_cons, hentry]
          simp only [lastVal]
          cases hl : lastVal k (rest.filterMap entryOfLine) with
          | some w =>
            have hk := hlook k
            rw [hl] at hk
            simpa using hk
          | none =>
            have hk := hlook k
            rw [hl] at hk
            simp only at hk
            rw [hk, lookupA_updateAssoc]
            split_ifs with hif <;> simp [hif]
    · rw [parseLines, if_neg hkeep] at h
      obtain ⟨hnodup, hlook⟩ := ih _ _ h
      have hentry : entryOfLine line = none := by
        rw [entryOfLine, if_neg hkeep]
      refine ⟨hnodup, fun k => ?_⟩
      rw [List.filterMap_cons, hentry]
      exact hlook k

/-- C8: the records returned by `parseColorData` have pairwise distinct
names, and when a name appears on several data lines the returned record
carries the (trimmed) hex code of the last such line. -/
theorem c8_unique_names_last_wins (data : List Char)
    (records : List ColorRecord) (hok : parseColorData data = .ok records) :
    (records.map ColorRecord.name).Nodup ∧
    ∀ rec, rec ∈ records →
      lastVal rec.name ((jsSplit '\n' data).filterMap entryOfLine) =
        some rec.hex := by
  unfold parseColorData at hok
  cases hp : parseLines (jsSplit '\n' data) [] with
  | error e =>
    rw [hp] at hok
    simp [Except.map] at hok
  | ok colors =>
    rw [hp] at hok
    simp only [Except.map] at hok
    injection hok with hok
    obtain ⟨hnd, hlook⟩ := parseLines_ok_spec _ _ _ hp
    have hnodup : (colors.map Prod.fst).Nodup := hnd (by simp)
    subst hok
    constructor
    · rw [List.map_map]
      have hcomp : (ColorRecord.name ∘
          fun kv : List Char × List Char => mkRecord kv.1 kv.2) = Prod.fst :=
        funext fun kv => rfl
      rw [hcomp]
      exact hnodup
    · intro rec hrec
      obtain ⟨kv, hkv, heq⟩ := List.mem_map.mp hrec
      have hname : rec.name = kv.1 := by rw [← heq]; rfl
      have hhex : rec.hex = kv.2 := by rw [← heq]; rfl
      have hmem : (kv.1, kv.2) ∈ colors := by simpa using hkv
      have hsome : lookupA kv.1 colors = some kv.2 :=
        lookupA_eq_some_of_mem _ _ _ hnodup hmem
      have hl := hlook kv.1
      rw [hsome] at hl
      rw [hname, hhex]
      cases hlv : lastVal kv.1 ((jsSplit '\n' data).filterMap entryOfLine) with
      | none =>
        rw [hlv] at hl
        simp [lookupA] at hl
      | some w =>
        rw [hlv] at hl
        simp only at hl
        injection hl with hl
        rw [hl]

theorem hexToRgb_00FF00 : hexToRgb "00FF00".toList = (num 0, num 255, num 0) := by
  simp only [hexToRgb,
    show jsParseInt16Core (jsSubstr (jsReplaceHash "00FF00".toList) 0 2) =
      some 0 from by decide,
    show jsParseInt16Core (jsSubstr (jsReplaceHash "00FF00".toList) 2 2) =
      some 255 from by decide,
    show jsParseInt16Core (jsSubstr (jsReplaceHash "00FF00".toList) 4 2) =
      some 0 from by decide,
    jsParseInt16]
  norm_num

theorem rgbToHsv_green :
    rgbToHsv (num 0) (num 255) (num 0) = (num (1 / 3), num 1, num 1) := by
  norm_num [rgbToHsv, jdiv, jmax, jmin, jsub, jadd, jeq, jlt, ofUndef]

theorem parse_doubleRed :
    parseColorData doubleRedTable = .ok [lastRedRecord] := by
  have hp : parseLines (jsSplit '\n' doubleRedTable) [] =
      .ok [("red".toList, "00FF00".toList)] := by decide
  simp only [parseColorData, hp, Except.map, List.map, mkRecord,
    hexToRgb_00FF00, rgbToHsv_green, lastRedRecord]
  norm_num [jmul]

/-- Witness for C8 on the concrete two-line `red` table. -/
theorem c8_unique_names_last_wins_witness :
    (([lastRedRecord].map ColorRecord.name).Nodup ∧
     ∀ rec, rec ∈ [lastRedRecord] →
       lastVal rec.name ((jsSplit '\n' doubleRedTable).filterMap entryOfLine) =
         some rec.hex) :=
  c8_unique_names_last_wins doubleRedTable [lastRedRecord] parse_doubleRed

/-! ## C10: NaN behaviour of `hexToRgb` / `rgbToHsv` -/

theorem jdiv_nan_left (y : JNum) : jdiv JNum.nan y = JNum.nan := by
  cases y <;> rfl

theorem jmax_nan_left (y : JNum) : jmax JNum.nan y = JNum.nan := by
  cases y <;> rfl

theorem jmax_nan_right (x : JNum) : jmax x JNum.nan = JNum.nan := by
  cases x <;> rfl

theorem jsub_nan_left (y : JNum) : jsub JNum.nan y = JNum.nan := by
  cases y <;> rfl

theorem jeq_nan_left (y : JNum) : jeq JNum.nan y = false := by
  cases y <;> rfl

/-- NaN propagation through `rgbToHsv`: with any NaN channel, `max` is
NaN, no `switch` case matches (strict equality with NaN is false), `h`
stays undefined and `h /= 6` makes it NaN; `s` and `v` are NaN too. -/
theorem rgbToHsv_nan (r g b : JNum)
    (h : r = JNum.nan ∨ g = JNum.nan ∨ b = JNum.nan) :
    rgbToHsv r g b = (JNum.nan, JNum.nan, JNum.nan) := by
  have hmx : jmax (jdiv r (num 255))
      (jmax (jdiv g (num 255)) (jdiv b (num 255))) = JNum.nan := by
    rcases h with h | h | h <;> subst h <;>
      simp [jdiv_nan_left, jmax_nan_left, jmax_nan_right]
  simp only [rgbToHsv, hmx, jeq_nan_left, jsub_nan_left, jdiv_nan_left,
    ofUndef, Bool.false_eq_true, if_false]

theorem jsReplaceHash_length (s : List Char) :
    (jsReplaceHash s).length ≤ s.length := by
  induction s with
  | nil => simp [jsReplaceHash]
  | cons c rest ih =>
    simp only [jsReplaceHash, List.length_cons]
    split_ifs
    · exact Nat.le_succ _
    · simpa using Nat.succ_le_succ ih

/-- A hex code of at most 4 characters leaves `substr(4, 2)` empty, so the
blue component is `parseInt('', 16) = NaN`; no error is raised. -/
theorem hexToRgb_short (code : List Char) (h : code.length ≤ 4) :
    (hexToRgb code).2.2 = JNum.nan := by
  have hlen : (jsReplaceHash code).length ≤ 4 :=
    le_trans (jsReplaceHash_length code) h
  have hdrop : (jsReplaceHash code).drop 4 = [] := List.drop_eq_nil_of_le hlen
  simp [hexToRgb, jsSubstr, hdrop, jsParseInt16, jsParseInt16Core, hexDigitsAcc]

theorem hexToRgb_1G0000 : hexToRgb "1G0000".toList = (num 1, num 0, num 0) := by
  simp only [hexToRgb,
    show jsParseInt16Core (jsSubstr (jsReplaceHash "1G0000".toList) 0 2) =
      some 1 from by decide,
    show jsParseInt16Core (jsSubstr (jsReplaceHash "1G0000".toList) 2 2) =
      some 0 from by decide,
    show jsParseInt16Core (jsSubstr (jsReplaceHash "1G0000".toList) 4 2) =
      some 0 from by decide,
    jsParseInt16]
  norm_num

theorem hexToRgb_FFF : hexToRgb "FFF".toList = (num 255, num 15, JNum.nan) := by
  simp only [hexToRgb,
    show jsParseInt16Core (jsSubstr (jsReplaceHash "FFF".toList) 0 2) =
      some 255 from by decide,
    show jsParseInt16Core (jsSubstr (jsReplaceHash "FFF".toList) 2 2) =
      some 15 from by decide,
    show jsParseInt16Core (jsSubstr (jsReplaceHash "FFF".toList) 4 2) =
      none from by decide,
    jsParseInt16]
  norm_num

/-- C10, counterexample: `1G0000` does not consist of six valid hex digits
(`G` is not one), yet `parseInt('1G', 16)` parses the prefix and returns
`1` — not NaN — and the derived hue, saturation and brightness are the
ordinary numbers `0`, `1`, `1/255`, none of them NaN. -/
theorem c10_nan_counterexample :
    (hexToRgb "1G0000".toList).1 = num 1 ∧
    (mkRecord "x".toList "1G0000".toList).hue = num 0 ∧
    (mkRecord "x".toList "1G0000".toList).saturation = num 1 ∧
    (mkRecord "x".toList "1G0000".toList).brightness = num (1 / 255) ∧
    num 1 ≠ JNum.nan ∧ num 0 ≠ JNum.nan ∧ num (1 / 255) ≠ JNum.nan := by
  have hsv1 : rgbToHsv (num 1) (num 0) (num 0) =
      (num 0, num 1, num (1 / 255)) := by
    norm_num [rgbToHsv, jdiv, jmax, jmin, jsub, jadd, jeq, jlt, ofUndef]
  refine ⟨by rw [hexToRgb_1G0000], ?_, ?_, ?_, by simp, by simp, by simp⟩
  all_goals simp only [mkRecord, hexToRgb_1G0000, hsv1]
  all_goals norm_num [jmul]

/-- C10, amended: when a two-character component of the hex field contains
no leading hex digit — as for the missing components of a too-short code
(length ≤ 4) — `parseInt` returns NaN without raising an error, and
whenever any of `r`, `g`, `b` is NaN the derived hue, saturation and
brightness are all NaN (no `switch` case matches NaN, so `h` stays
undefined and `h /= 6` yields NaN). -/
theorem c10_nan_amended :
    (∀ code : List Char, code.length ≤ 4 → (hexToRgb code).2.2 = JNum.nan) ∧
    (∀ r g b : JNum, r = JNum.nan ∨ g = JNum.nan ∨ b = JNum.nan →
      rgbToHsv r g b = (JNum.nan, JNum.nan, JNum.nan)) :=
  ⟨hexToRgb_short, rgbToHsv_nan⟩

/-- Witness for (amended) C10 on the too-short code `FFF`. -/
theorem c10_nan_amended_witness :
    (hexToRgb "FFF".toList).2.2 = JNum.nan ∧
    rgbToHsv (num 255) (num 15) JNum.nan =
      (JNum.nan, JNum.nan, JNum.nan) ∧
    (mkRecord "x".toList "FFF".toList).hue = JNum.nan := by
  have h2 : rgbToHsv (num 255) (num 15) JNum.nan =
      (JNum.nan, JNum.nan, JNum.nan) :=
    c10_nan_amended.2 _ _ _ (Or.inr (Or.inr rfl))
  refine ⟨c10_nan_amended.1 "FFF".toList (by decide), h2, ?_⟩
  simp only [mkRecord, hexToRgb_FFF, h2]
  rfl
